import Mathlib

/-!
# Verification of the `subnet` library (IPv4 addresses and subnet masks)

Shallow embedding of `src/subnet/src/constants.rs` and `src/subnet/src/types.rs`.

Conventions of the embedding:
* Rust `u8` values become `Nat`; wherever the Rust code could overflow or
  truncate, the reduction modulo `2^8` (or `2^32` / `2^64`) is written out
  explicitly.
* Rust `String` / `&str` text becomes `List Char` (the sequence of characters,
  which is what `split`, `parse` and `format!` operate on).
* Fallible Rust functions returning `Result<T, E>` become `Except E T`.
* `IPAddress::from_string` and `SubnetMask::from_string` index into the vector
  of chunks produced by `split` without a bounds check, so on some inputs the
  Rust code panics (index out of bounds).  Their embedding therefore returns a
  three-valued outcome `ParseOutcome` with an explicit `panics` constructor.
-/

set_option maxRecDepth 4000

deriving instance DecidableEq for Except

namespace Subnet

/-- `pub const UNDEF_CIDR: u8 = 0xFA;` (constants.rs) -/
def UNDEF_CIDR : Nat := 0xFA

/-- `pub const MAX_CIDR: u8 = 0x20;` (constants.rs) -/
def MAX_CIDR : Nat := 0x20

/-- `pub const MIN_BLOCK: u8 = 0x00;` (constants.rs) -/
def MIN_BLOCK : Nat := 0x00

/-- `pub const MAX_BLOCK: u8 = 0xFF;` (constants.rs) -/
def MAX_BLOCK : Nat := 0xFF

/-- `ParseError` (types.rs): `GenericError{position, value}` carries the name of
the field that failed ("byte 0" .. "byte 3", "CIDR value") and the raw
offending token; `MaxCidrExceeded{value}` carries the out-of-range CIDR. -/
inductive ParseError where
  | GenericError (position : String) (value : List Char)
  | MaxCidrExceeded (value : Nat)
deriving DecidableEq, Repr

/-- `NetmaskError` (types.rs): `UndefinedCidr`, `MaxCidrExceeded{value}`,
`CalculationError`. -/
inductive NetmaskError where
  | UndefinedCidr
  | MaxCidrExceeded (value : Nat)
  | CalculationError
deriving DecidableEq, Repr

/-- Outcome of running one of the `from_string` parsers: the Rust code can
return `Ok`, return `Err`, or panic with an index-out-of-bounds fault when it
positionally indexes a chunk that does not exist. -/
inductive ParseOutcome (α : Type) where
  | panics
  | fails (e : ParseError)
  | ok (a : α)
deriving DecidableEq, Repr

/-- `pub struct IPAddress { b0, b1, b2, b3, cidr : u8 }` (types.rs). -/
structure IPAddress where
  b0 : Nat
  b1 : Nat
  b2 : Nat
  b3 : Nat
  cidr : Nat
deriving DecidableEq, Repr

/-- `pub struct SubnetMask { b0, b1, b2, b3 : u8 }` (types.rs). -/
structure SubnetMask where
  b0 : Nat
  b1 : Nat
  b2 : Nat
  b3 : Nat
deriving DecidableEq, Repr

/-- One step of Rust's `u8::from_str` digit loop: multiply the accumulator by
10, add the digit value, and fail on overflow past `u8::MAX = 255` (Rust uses
`checked_mul` / `checked_add`; for digits `d ≤ 9` the two checks together are
equivalent to the single bound `acc * 10 + d ≤ 255`). Non-digit characters
fail. -/
def parseDigitsAux : List Char → Nat → Option Nat
  | [], acc => some acc
  | ch :: rest, acc =>
    if '0' ≤ ch ∧ ch ≤ '9' then
      let v := acc * 10 + (ch.toNat - 48)
      if v ≤ 255 then parseDigitsAux rest v else none
    else none

/-- Rust `u8::from_str` (`"...".parse::<u8>()`): an optional leading `'+'`,
then a non-empty run of decimal digits whose value fits in `u8`.  Everything
else (empty input, a lone sign, a `'-'`, any non-digit, overflow) is an error;
since the library only ever tests `is_err()`, the error's kind is not
modelled and failure is `none`. -/
def parse_u8 (s : List Char) : Option Nat :=
  match s with
  | [] => none
  | '+' :: rest =>
    match rest with
    | [] => none
    | _ => parseDigitsAux rest 0
  | _ => parseDigitsAux s 0

/-- Rust `str::split` on a set of separator characters, as a function on the
character list: `""` yields `[""]`, adjacent separators yield empty chunks,
e.g. `"a."` yields `["a", ""]`. -/
def splitChars (seps : List Char) : List Char → List (List Char)
  | [] => [[]]
  | c :: rest =>
    if c ∈ seps then [] :: splitChars seps rest
    else
      match splitChars seps rest with
      | [] => [[c]]
      | t :: ts => (c :: t) :: ts

/-- Rust's decimal rendering of an unsigned integer (`format!("{}", n)`):
no sign, no padding, no leading zeros. -/
def fmt_u8 (n : Nat) : List Char := Nat.toDigits 10 n

namespace SubnetMask

/-- `SubnetMask::new` (types.rs). -/
def new (b0 b1 b2 b3 : Nat) : SubnetMask := ⟨b0, b1, b2, b3⟩

/-- The `for i in MAX_CIDR - cidr..MAX_CIDR { bits |= 1 << i; }` loop of
`SubnetMask::from_cidr`: fold `bits |= 1 << i` over the half-open range
`[lo, hi)`, which Rust iterates in increasing order and which is empty when
`lo ≥ hi`.  `bits` is a `usize`; every shift amount here is at most 31, so no
64-bit truncation can occur and `Nat` arithmetic is exact. -/
def maskBits (lo hi : Nat) : Nat :=
  (List.range' lo (hi - lo)).foldl (fun bits i => bits ||| (1 <<< i)) 0

/-- `SubnetMask::from_cidr` (types.rs): reject `UNDEF_CIDR`, reject values
above `MAX_CIDR`, otherwise build the bit pattern with the loop over
`MAX_CIDR - cidr..MAX_CIDR` and split it into four octets (`as u8` casts are
the explicit `% 256`). -/
def from_cidr (cidr : Nat) : Except NetmaskError SubnetMask :=
  if cidr = UNDEF_CIDR then
    .error .UndefinedCidr
  else if cidr > MAX_CIDR then
    .error (.MaxCidrExceeded cidr)
  else
    let bits := maskBits (MAX_CIDR - cidr) MAX_CIDR
    .ok (new (((bits &&& 0xFF000000) >>> 24) % 256)
            (((bits &&& 0xFF0000) >>> 16) % 256)
            (((bits &&& 0xFF00) >>> 8) % 256)
            ((bits &&& 0xFF) % 256))

/-- `SubnetMask::from_string` (types.rs): split on `'.'` alone, then parse
chunks 0–3 positionally, returning the "byte N" `GenericError` on a failed
parse; indexing a missing chunk panics. -/
def from_string (netmask : List Char) : ParseOutcome SubnetMask :=
  let chunks := splitChars ['.'] netmask
  match chunks.get? 0 with
  | none => .panics
  | some c0 =>
    match parse_u8 c0 with
    | none => .fails (.GenericError "byte 0" c0)
    | some b0 =>
      match chunks.get? 1 with
      | none => .panics
      | some c1 =>
        match parse_u8 c1 with
        | none => .fails (.GenericError "byte 1" c1)
        | some b1 =>
          match chunks.get? 2 with
          | none => .panics
          | some c2 =>
            match parse_u8 c2 with
            | none => .fails (.GenericError "byte 2" c2)
            | some b2 =>
              match chunks.get? 3 with
              | none => .panics
              | some c3 =>
                match parse_u8 c3 with
                | none => .fails (.GenericError "byte 3" c3)
                | some b3 => .ok (new b0 b1 b2 b3)

/-- `SubnetMask::from_str` (types.rs): delegates to `from_string` after
`.to_string()`, which copies the text unchanged. -/
def from_str (netmask : List Char) : ParseOutcome SubnetMask :=
  from_string netmask

/-- `SubnetMask::to_string` (types.rs): `format!("{}.{}.{}.{}", ...)`. -/
def to_string (m : SubnetMask) : List Char :=
  fmt_u8 m.b0 ++ '.' :: (fmt_u8 m.b1 ++ '.' :: (fmt_u8 m.b2 ++ '.' :: fmt_u8 m.b3))

end SubnetMask

namespace IPAddress

/-- `IPAddress::new` (types.rs). -/
def new (b0 b1 b2 b3 cidr : Nat) : IPAddress := ⟨b0, b1, b2, b3, cidr⟩

/-- `IPAddress::new_without_cidr` (types.rs). -/
def new_without_cidr (b0 b1 b2 b3 : Nat) : IPAddress :=
  new b0 b1 b2 b3 UNDEF_CIDR

/-- `IPAddress::from_string` (types.rs): split on `'.'` and `'/'`, parse chunks
0–3 positionally as the octets ("byte N" `GenericError` on a failed parse,
panic on a missing chunk), then, only when at least 5 chunks exist, parse chunk
4 as the CIDR ("CIDR value" `GenericError` on a failed parse,
`MaxCidrExceeded` when it parses above `MAX_CIDR`); with fewer than 5 chunks
the CIDR is `UNDEF_CIDR`.  Chunks past the fifth are ignored. -/
def from_string (ip_address : List Char) : ParseOutcome IPAddress :=
  let chunks := splitChars ['.', '/'] ip_address
  match chunks.get? 0 with
  | none => .panics
  | some c0 =>
    match parse_u8 c0 with
    | none => .fails (.GenericError "byte 0" c0)
    | some b0 =>
      match chunks.get? 1 with
      | none => .panics
      | some c1 =>
        match parse_u8 c1 with
        | none => .fails (.GenericError "byte 1" c1)
        | some b1 =>
          match chunks.get? 2 with
          | none => .panics
          | some c2 =>
            match parse_u8 c2 with
            | none => .fails (.GenericError "byte 2" c2)
            | some b2 =>
              match chunks.get? 3 with
              | none => .panics
              | some c3 =>
                match parse_u8 c3 with
                | none => .fails (.GenericError "byte 3" c3)
                | some b3 =>
                  if 5 ≤ chunks.length then
                    match chunks.get? 4 with
                    | none => .panics
                    | some c4 =>
                      match parse_u8 c4 with
                      | none => .fails (.GenericError "CIDR value" c4)
                      | some v =>
                        if v > MAX_CIDR then .fails (.MaxCidrExceeded v)
                        else .ok (new b0 b1 b2 b3 v)
                  else .ok (new b0 b1 b2 b3 UNDEF_CIDR)

/-- `IPAddress::from_str` (types.rs): delegates to `from_string` after
`.to_string()`, which copies the text unchanged. -/
def from_str (ip_address : List Char) : ParseOutcome IPAddress :=
  from_string ip_address

/-- `IPAddress::to_string` (types.rs): `"b0.b1.b2.b3/cidr"` when the CIDR field
differs from `UNDEF_CIDR`, `"b0.b1.b2.b3"` otherwise. -/
def to_string (a : IPAddress) : List Char :=
  if a.cidr ≠ UNDEF_CIDR then
    fmt_u8 a.b0 ++ '.' :: (fmt_u8 a.b1 ++ '.' :: (fmt_u8 a.b2 ++
      '.' :: (fmt_u8 a.b3 ++ '/' :: fmt_u8 a.cidr)))
  else
    fmt_u8 a.b0 ++ '.' :: (fmt_u8 a.b1 ++ '.' :: (fmt_u8 a.b2 ++
      '.' :: fmt_u8 a.b3))

/-- `IPAddress::calculate_subnet` (types.rs): derive the mask from the
address's own CIDR field, propagating any `NetmaskError` unchanged; on success
AND each octet with the corresponding mask octet on a copy of the address
(`&=` on `u8` never overflows, so no reduction is needed) and leave the CIDR
field as it was. -/
def calculate_subnet (a : IPAddress) : Except NetmaskError IPAddress :=
  match SubnetMask.from_cidr a.cidr with
  | .error e => .error e
  | .ok m =>
    .ok ⟨a.b0 &&& m.b0, a.b1 &&& m.b1, a.b2 &&& m.b2, a.b3 &&& m.b3, a.cidr⟩

end IPAddress

/-- `u8::count_ones` (the popcount intrinsic applied to an 8-bit value): the
number of set bits among the 8 bits of the byte. -/
def count_ones8 (n : Nat) : Nat :=
  (List.range 8).foldl (fun acc i => acc + n / 2 ^ i % 2) 0

/-- `fn count_set_bits(b0, b1, b2, b3: u8) -> u32` (types.rs): the sum of the
population counts of the four bytes. -/
def count_set_bits (b0 b1 b2 b3 : Nat) : Nat :=
  count_ones8 b0 + count_ones8 b1 + count_ones8 b2 + count_ones8 b3

/-! ## Helper lemmas -/

/-- Parsing is a left inverse of decimal formatting on the whole `u8` range. -/
theorem parse_u8_fmt_u8 : ∀ a < 256, parse_u8 (fmt_u8 a) = some a := by decide

/-- The decimal rendering of a `u8` value contains neither separator. -/
theorem fmt_u8_sep_free : ∀ a < 256, ∀ ch ∈ fmt_u8 a, ch ≠ '.' ∧ ch ≠ '/' := by
  decide

/-- `splitChars` never returns the empty list of chunks. -/
theorem splitChars_ne_nil (seps : List Char) (s : List Char) :
    splitChars seps s ≠ [] := by
  induction s with
  | nil => simp [splitChars]
  | cons c rest ih =>
    simp only [splitChars]
    split
    · simp
    · cases h : splitChars seps rest with
      | nil => exact absurd h ih
      | cons t ts => simp

/-- Splitting a string that starts with a separator-free token prepends that
token to the first chunk of the rest. -/
theorem splitChars_append (seps : List Char) (t r : List Char)
    (h : ∀ ch ∈ t, ch ∉ seps) :
    splitChars seps (t ++ r) =
      match splitChars seps r with
      | [] => [t]
      | u :: us => (t ++ u) :: us := by
  induction t with
  | nil =>
    cases hr : splitChars seps r with
    | nil => exact absurd hr (splitChars_ne_nil seps r)
    | cons u us => simp [hr]
  | cons c t' ih =>
    have hc : c ∉ seps := h c (List.mem_cons_self c t')
    have ht' : ∀ ch ∈ t', ch ∉ seps := fun ch hch => h ch (List.mem_cons_of_mem c hch)
    cases hr : splitChars seps r with
    | nil => exact absurd hr (splitChars_ne_nil seps r)
    | cons u us =>
      have h2 : splitChars seps (t' ++ r) = (t' ++ u) :: us := by
        rw [ih ht', hr]
      show splitChars seps (c :: (t' ++ r)) = (c :: (t' ++ u)) :: us
      simp only [splitChars, if_neg hc, h2]

/-- Splitting a separator-free token followed by a separator peels off exactly
that token as one chunk. -/
theorem splitChars_token_sep (seps : List Char) (sep : Char) (t r : List Char)
    (hs : sep ∈ seps) (h : ∀ ch ∈ t, ch ∉ seps) :
    splitChars seps (t ++ sep :: r) = t :: splitChars seps r := by
  have hsep : splitChars seps (sep :: r) = [] :: splitChars seps r := by
    simp [splitChars, hs]
  rw [splitChars_append seps t (sep :: r) h, hsep]
  simp

/-- A separator-free string is a single chunk. -/
theorem splitChars_no_sep (seps : List Char) (t : List Char)
    (h : ∀ ch ∈ t, ch ∉ seps) :
    splitChars seps t = [t] := by
  have := splitChars_append seps t [] h
  simpa [splitChars] using this

/-- For `c ≤ 32`, `from_cidr` reaches its success branch. -/
theorem from_cidr_ok_of_le (c : Nat) (h : c ≤ 32) :
    SubnetMask.from_cidr c =
      .ok (SubnetMask.new
            (((Subnet.SubnetMask.maskBits (MAX_CIDR - c) MAX_CIDR &&& 0xFF000000) >>> 24) % 256)
            (((Subnet.SubnetMask.maskBits (MAX_CIDR - c) MAX_CIDR &&& 0xFF0000) >>> 16) % 256)
            (((Subnet.SubnetMask.maskBits (MAX_CIDR - c) MAX_CIDR &&& 0xFF00) >>> 8) % 256)
            ((Subnet.SubnetMask.maskBits (MAX_CIDR - c) MAX_CIDR &&& 0xFF) % 256)) := by
  have h1 : c ≠ UNDEF_CIDR := by
    intro hc; rw [hc] at h; exact absurd h (by decide)
  have h2 : ¬ c > MAX_CIDR := by
    simp only [MAX_CIDR]; omega
  simp only [SubnetMask.from_cidr, if_neg h1, if_neg h2]

/-- Any error produced by `from_cidr` is `UndefinedCidr` or `MaxCidrExceeded`,
never `CalculationError`. -/
theorem from_cidr_error_not_calc (c : Nat) (e : NetmaskError)
    (h : SubnetMask.from_cidr c = .error e) : e ≠ .CalculationError := by
  by_cases h1 : c = UNDEF_CIDR
  · simp only [SubnetMask.from_cidr, if_pos h1] at h
    cases h; simp
  · by_cases h2 : c > MAX_CIDR
    · simp only [SubnetMask.from_cidr, if_neg h1, if_pos h2] at h
      cases h; simp
    · simp only [SubnetMask.from_cidr, if_neg h1, if_neg h2] at h
      cases h

/-! ## Claim theorems -/

/-- C1: for every CIDR value `c` with `0 ≤ c ≤ 32`, `SubnetMask::from_cidr(c)`
succeeds and returns the canonical mask: the 32-bit pattern whose high-order
`c` bits are 1 and whose low-order `32 - c` bits are 0, split
most-significant-octet first into `b0..b3`; in particular `from_cidr 0` is
`0.0.0.0`, `from_cidr 24` is `255.255.255.0` and `from_cidr 32` is
`255.255.255.255`, the bit loop being well defined at both boundaries. -/
theorem from_cidr_canonical_mask :
    (∀ c : Nat, c ≤ 32 →
      SubnetMask.from_cidr c =
        .ok ⟨(2 ^ 32 - 2 ^ (32 - c)) / 2 ^ 24 % 256,
             (2 ^ 32 - 2 ^ (32 - c)) / 2 ^ 16 % 256,
             (2 ^ 32 - 2 ^ (32 - c)) / 2 ^ 8 % 256,
             (2 ^ 32 - 2 ^ (32 - c)) % 256⟩) ∧
    SubnetMask.from_cidr 0 = .ok ⟨0, 0, 0, 0⟩ ∧
    SubnetMask.from_cidr 24 = .ok ⟨255, 255, 255, 0⟩ ∧
    SubnetMask.from_cidr 32 = .ok ⟨255, 255, 255, 255⟩ := by decide

theorem from_cidr_canonical_mask_witness :
    SubnetMask.from_cidr 24 =
      .ok ⟨(2 ^ 32 - 2 ^ (32 - 24)) / 2 ^ 24 % 256,
           (2 ^ 32 - 2 ^ (32 - 24)) / 2 ^ 16 % 256,
           (2 ^ 32 - 2 ^ (32 - 24)) / 2 ^ 8 % 256,
           (2 ^ 32 - 2 ^ (32 - 24)) % 256⟩ :=
  from_cidr_canonical_mask.1 24 (by decide)

/-- C6: over the `u8` input domain, `from_cidr` fails with `UndefinedCidr`
exactly on `UNDEF_CIDR = 0xFA`, and fails with `MaxCidrExceeded` carrying the
offending value exactly on inputs above `MAX_CIDR = 32` other than the
sentinel; in particular `from_cidr 33` and `from_cidr UNDEF_CIDR` fail as
stated, the sentinel check taking precedence. -/
theorem from_cidr_error_conditions :
    (∀ cidr : Nat, cidr < 256 →
      ((SubnetMask.from_cidr cidr = .error .UndefinedCidr ↔ cidr = UNDEF_CIDR) ∧
       (SubnetMask.from_cidr cidr = .error (.MaxCidrExceeded cidr) ↔
         (MAX_CIDR < cidr ∧ cidr ≠ UNDEF_CIDR)))) ∧
    SubnetMask.from_cidr 33 = .error (.MaxCidrExceeded 33) ∧
    SubnetMask.from_cidr UNDEF_CIDR = .error .UndefinedCidr := by decide

theorem from_cidr_error_conditions_witness :
    (SubnetMask.from_cidr 250 = .error .UndefinedCidr ↔ 250 = UNDEF_CIDR) ∧
    (SubnetMask.from_cidr 250 = .error (.MaxCidrExceeded 250) ↔
      (MAX_CIDR < 250 ∧ 250 ≠ UNDEF_CIDR)) :=
  from_cidr_error_conditions.1 250 (by decide)

/-- C9: `count_set_bits` is the sum of the population counts of its four
bytes, always lands in `[0, 32]` on 8-bit inputs and has no failure mode; in
particular it maps `255,255,255,255` to 32 and `0,0,0,0` to 0. -/
theorem count_set_bits_spec :
    (∀ b0 b1 b2 b3 : Nat, b0 < 256 → b1 < 256 → b2 < 256 → b3 < 256 →
      (count_set_bits b0 b1 b2 b3 =
        count_ones8 b0 + count_ones8 b1 + count_ones8 b2 + count_ones8 b3 ∧
       count_set_bits b0 b1 b2 b3 ≤ 32)) ∧
    count_set_bits 255 255 255 255 = 32 ∧
    count_set_bits 0 0 0 0 = 0 := by
  have hle : ∀ n < 256, count_ones8 n ≤ 8 := by decide
  refine ⟨?_, by decide, by decide⟩
  intro b0 b1 b2 b3 h0 h1 h2 h3
  refine ⟨rfl, ?_⟩
  have := hle b0 h0
  have := hle b1 h1
  have := hle b2 h2
  have := hle b3 h3
  simp only [count_set_bits]
  omega

theorem count_set_bits_spec_witness :
    count_set_bits 170 204 15 1 =
      count_ones8 170 + count_ones8 204 + count_ones8 15 + count_ones8 1 ∧
    count_set_bits 170 204 15 1 ≤ 32 :=
  count_set_bits_spec.1 170 204 15 1 (by decide) (by decide) (by decide) (by decide)

/-- C10: on the valid CIDR range, counting the set bits of the mask returned
by `from_cidr` recovers the CIDR value exactly: `count_set_bits` is a left
inverse of mask derivation. -/
theorem count_set_bits_from_cidr :
    ∀ c : Nat, c ≤ 32 →
      (SubnetMask.from_cidr c).toOption.map
        (fun m => count_set_bits m.b0 m.b1 m.b2 m.b3) = some c := by decide

theorem count_set_bits_from_cidr_witness :
    (SubnetMask.from_cidr 24).toOption.map
      (fun m => count_set_bits m.b0 m.b1 m.b2 m.b3) = some 24 :=
  count_set_bits_from_cidr 24 (by decide)

/-- C2: the claim states that on inputs with fewer than 4 tokens both parsers
return the "byte N" `GenericError` for the first missing token and never abort.
The code does the opposite: on `"1.2"` both present tokens parse, and the
positional access to the missing chunk 2 is an out-of-bounds index, i.e. a
panic, in `IPAddress::from_string` and in `SubnetMask::from_string` alike. -/
theorem parsers_panic_on_missing_tokens :
    IPAddress.from_string ('1' :: '.' :: '2' :: []) = .panics ∧
    SubnetMask.from_string ('1' :: '.' :: '2' :: []) = .panics := by decide

/-- C5: for an address whose CIDR field derives a mask, `calculate_subnet`
succeeds and ANDs each octet with the corresponding mask octet, copying the
CIDR field unchanged; when `from_cidr` fails, that `NetmaskError` is
propagated unchanged and `CalculationError` is never produced; the network of
`192.168.1.2/24` is `192.168.1.0/24`. -/
theorem calculate_subnet_spec :
    (∀ a : IPAddress, ∀ m : SubnetMask, SubnetMask.from_cidr a.cidr = .ok m →
      IPAddress.calculate_subnet a =
        .ok ⟨a.b0 &&& m.b0, a.b1 &&& m.b1, a.b2 &&& m.b2, a.b3 &&& m.b3, a.cidr⟩) ∧
    (∀ a : IPAddress, a.cidr ≤ 32 →
      ∃ r : IPAddress, IPAddress.calculate_subnet a = .ok r) ∧
    (∀ a : IPAddress, ∀ e : NetmaskError, SubnetMask.from_cidr a.cidr = .error e →
      IPAddress.calculate_subnet a = .error e) ∧
    (∀ a : IPAddress, IPAddress.calculate_subnet a ≠ .error .CalculationError) ∧
    IPAddress.calculate_subnet ⟨192, 168, 1, 2, 24⟩ = .ok ⟨192, 168, 1, 0, 24⟩ := by
  refine ⟨?_, ?_, ?_, ?_, by decide⟩
  · intro a m h
    simp only [IPAddress.calculate_subnet, h]
  · intro a h
    cases heq : IPAddress.calculate_subnet a with
    | ok r => exact ⟨r, rfl⟩
    | error e =>
      have hok := from_cidr_ok_of_le a.cidr h
      simp [IPAddress.calculate_subnet, hok] at heq
  · intro a e h
    simp only [IPAddress.calculate_subnet, h]
  · intro a hcontra
    cases heq : SubnetMask.from_cidr a.cidr with
    | error e =>
      simp only [IPAddress.calculate_subnet, heq, Except.error.injEq] at hcontra
      exact from_cidr_error_not_calc a.cidr e heq hcontra
    | ok m =>
      simp only [IPAddress.calculate_subnet, heq] at hcontra
      exact Except.noConfusion hcontra

theorem calculate_subnet_spec_witness :
    IPAddress.calculate_subnet ⟨192, 168, 1, 2, 24⟩ =
      .ok ⟨192 &&& 255, 168 &&& 255, 1 &&& 255, 2 &&& 0, 24⟩ :=
  calculate_subnet_spec.1 ⟨192, 168, 1, 2, 24⟩ ⟨255, 255, 255, 0⟩ (by decide)

/-- C8: the borrowing entry points `IPAddress::from_str` and
`SubnetMask::from_str` behave identically to the owning `from_string` ones on
every input text: the source delegates after a content-preserving
`.to_string()` conversion. -/
theorem from_str_eq_from_string :
    (∀ s : List Char, IPAddress.from_str s = IPAddress.from_string s) ∧
    (∀ s : List Char, SubnetMask.from_str s = SubnetMask.from_string s) :=
  ⟨fun _ => rfl, fun _ => rfl⟩

/-- C7: any successfully parsed address carries a CIDR field that is either
the `UNDEF_CIDR` sentinel or at most `MAX_CIDR`; no input text produces a CIDR
strictly between 32 and the sentinel or above it, and `calculate_subnet`
copies the CIDR unchanged, preserving the invariant. -/
theorem cidr_invariant :
    (∀ s : List Char, ∀ a : IPAddress, IPAddress.from_string s = .ok a →
      a.cidr = UNDEF_CIDR ∨ a.cidr ≤ MAX_CIDR) ∧
    (∀ s : List Char, ∀ a : IPAddress, IPAddress.from_str s = .ok a →
      a.cidr = UNDEF_CIDR ∨ a.cidr ≤ MAX_CIDR) ∧
    (∀ a r : IPAddress, IPAddress.calculate_subnet a = .ok r → r.cidr = a.cidr) := by
  have hmain : ∀ s : List Char, ∀ a : IPAddress, IPAddress.from_string s = .ok a →
      a.cidr = UNDEF_CIDR ∨ a.cidr ≤ MAX_CIDR := by
    intro s a h
    simp only [IPAddress.from_string] at h
    repeat' split at h
    all_goals try cases h
    all_goals simp_all [IPAddress.new, UNDEF_CIDR, MAX_CIDR]
  refine ⟨hmain, hmain, ?_⟩
  intro a r h
  cases heq : SubnetMask.from_cidr a.cidr with
  | error e => simp [IPAddress.calculate_subnet, heq] at h
  | ok m =>
    simp only [IPAddress.calculate_subnet, heq, Except.ok.injEq] at h
    rw [← h]

/-- The decimal rendering of a `u8` value is free of both separators, stated
via list membership. -/
theorem fmt_u8_not_mem_seps (x : Nat) (hx : x < 256) :
    ∀ ch ∈ fmt_u8 x, ch ∉ ['.', '/'] := by
  intro ch hch hmem
  obtain ⟨h1, h2⟩ := fmt_u8_sep_free x hx ch hch
  simp only [List.mem_cons, List.not_mem_nil, or_false] at hmem
  rcases hmem with h | h
  · exact h1 h
  · exact h2 h

/-- Splitting a canonically formatted `"a.b.c.d"` yields exactly the four
octet tokens. -/
theorem split_ip4 (a b c d : Nat) (ha : a < 256) (hb : b < 256) (hc : c < 256)
    (hd : d < 256) :
    splitChars ['.', '/']
        (fmt_u8 a ++ '.' :: (fmt_u8 b ++ '.' :: (fmt_u8 c ++ '.' :: fmt_u8 d)))
      = [fmt_u8 a, fmt_u8 b, fmt_u8 c, fmt_u8 d] := by
  rw [splitChars_token_sep _ '.' _ _ (by decide) (fmt_u8_not_mem_seps a ha),
      splitChars_token_sep _ '.' _ _ (by decide) (fmt_u8_not_mem_seps b hb),
      splitChars_token_sep _ '.' _ _ (by decide) (fmt_u8_not_mem_seps c hc),
      splitChars_no_sep _ _ (fmt_u8_not_mem_seps d hd)]

/-- Splitting a canonically formatted `"a.b.c.d/n"` yields exactly the four
octet tokens followed by the CIDR token. -/
theorem split_ip5 (a b c d n : Nat) (ha : a < 256) (hb : b < 256) (hc : c < 256)
    (hd : d < 256) (hn : n < 256) :
    splitChars ['.', '/']
        (fmt_u8 a ++ '.' :: (fmt_u8 b ++ '.' :: (fmt_u8 c ++ '.' ::
          (fmt_u8 d ++ '/' :: fmt_u8 n))))
      = [fmt_u8 a, fmt_u8 b, fmt_u8 c, fmt_u8 d, fmt_u8 n] := by
  rw [splitChars_token_sep _ '.' _ _ (by decide) (fmt_u8_not_mem_seps a ha),
      splitChars_token_sep _ '.' _ _ (by decide) (fmt_u8_not_mem_seps b hb),
      splitChars_token_sep _ '.' _ _ (by decide) (fmt_u8_not_mem_seps c hc),
      splitChars_token_sep _ '/' _ _ (by decide) (fmt_u8_not_mem_seps d hd),
      splitChars_no_sep _ _ (fmt_u8_not_mem_seps n hn)]

/-- C3: parsing a canonical decimal string `"a.b.c.d"` (each field rendered
with no sign, padding or leading zeros) succeeds with those octets and the
undefined-CIDR sentinel, and formatting the result reproduces the input text
exactly; likewise `"a.b.c.d/n"` with `n ≤ 32` parses to those octets with CIDR
`n` and formats back to exactly the same text: parse and format round-trip. -/
theorem parse_format_roundtrip :
    (∀ a b c d : Nat, a < 256 → b < 256 → c < 256 → d < 256 →
      (IPAddress.from_string
          (fmt_u8 a ++ '.' :: (fmt_u8 b ++ '.' :: (fmt_u8 c ++ '.' :: fmt_u8 d)))
        = .ok ⟨a, b, c, d, UNDEF_CIDR⟩ ∧
       IPAddress.to_string ⟨a, b, c, d, UNDEF_CIDR⟩
        = fmt_u8 a ++ '.' :: (fmt_u8 b ++ '.' :: (fmt_u8 c ++ '.' :: fmt_u8 d)))) ∧
    (∀ a b c d n : Nat, a < 256 → b < 256 → c < 256 → d < 256 → n ≤ 32 →
      (IPAddress.from_string
          (fmt_u8 a ++ '.' :: (fmt_u8 b ++ '.' :: (fmt_u8 c ++ '.' ::
            (fmt_u8 d ++ '/' :: fmt_u8 n))))
        = .ok ⟨a, b, c, d, n⟩ ∧
       IPAddress.to_string ⟨a, b, c, d, n⟩
        = fmt_u8 a ++ '.' :: (fmt_u8 b ++ '.' :: (fmt_u8 c ++ '.' ::
            (fmt_u8 d ++ '/' :: fmt_u8 n))))) := by
  constructor
  · intro a b c d ha hb hc hd
    constructor
    · have hs := split_ip4 a b c d ha hb hc hd
      simp [IPAddress.from_string, hs, parse_u8_fmt_u8 a ha, parse_u8_fmt_u8 b hb,
        parse_u8_fmt_u8 c hc, parse_u8_fmt_u8 d hd, IPAddress.new]
    · simp [IPAddress.to_string, UNDEF_CIDR]
  · intro a b c d n ha hb hc hd hn
    have hn' : n < 256 := by omega
    have hne : n ≠ UNDEF_CIDR := by simp only [UNDEF_CIDR]; omega
    constructor
    · have hs := split_ip5 a b c d n ha hb hc hd hn'
      have hnle : ¬ n > MAX_CIDR := by simp only [MAX_CIDR]; omega
      simp [IPAddress.from_string, hs, parse_u8_fmt_u8 a ha, parse_u8_fmt_u8 b hb,
        parse_u8_fmt_u8 c hc, parse_u8_fmt_u8 d hd, parse_u8_fmt_u8 n hn',
        hnle, IPAddress.new]
    · simp [IPAddress.to_string, hne]

theorem parse_format_roundtrip_witness :
    IPAddress.from_string
        (fmt_u8 192 ++ '.' :: (fmt_u8 168 ++ '.' :: (fmt_u8 1 ++ '.' ::
          (fmt_u8 2 ++ '/' :: fmt_u8 24))))
      = .ok ⟨192, 168, 1, 2, 24⟩ ∧
    IPAddress.to_string ⟨192, 168, 1, 2, 24⟩
      = fmt_u8 192 ++ '.' :: (fmt_u8 168 ++ '.' :: (fmt_u8 1 ++ '.' ::
          (fmt_u8 2 ++ '/' :: fmt_u8 24))) :=
  parse_format_roundtrip.2 192 168 1 2 24 (by decide) (by decide) (by decide)
    (by decide) (by decide)

/-- C4: `IPAddress::from_string` validates in strict positional order with
short-circuiting: the first octet chunk that fails to parse as a `u8`
determines the result, a `GenericError` carrying "byte 0".."byte 3" and the
offending chunk; only after all four octets parse does a failing fifth chunk
yield the "CIDR value" `GenericError`, and a fifth chunk that parses above
`MAX_CIDR` yields `MaxCidrExceeded` carrying that value; in particular
`"192.i68.1.2/24"` fails with the `GenericError` naming "byte 1". -/
theorem from_string_strict_order :
    (∀ s c0, (splitChars ['.', '/'] s).get? 0 = some c0 → parse_u8 c0 = none →
      IPAddress.from_string s = .fails (.GenericError "byte 0" c0)) ∧
    (∀ s c0 b0 c1, (splitChars ['.', '/'] s).get? 0 = some c0 →
      parse_u8 c0 = some b0 →
      (splitChars ['.', '/'] s).get? 1 = some c1 → parse_u8 c1 = none →
      IPAddress.from_string s = .fails (.GenericError "byte 1" c1)) ∧
    (∀ s c0 b0 c1 b1 c2, (splitChars ['.', '/'] s).get? 0 = some c0 →
      parse_u8 c0 = some b0 →
      (splitChars ['.', '/'] s).get? 1 = some c1 → parse_u8 c1 = some b1 →
      (splitChars ['.', '/'] s).get? 2 = some c2 → parse_u8 c2 = none →
      IPAddress.from_string s = .fails (.GenericError "byte 2" c2)) ∧
    (∀ s c0 b0 c1 b1 c2 b2 c3, (splitChars ['.', '/'] s).get? 0 = some c0 →
      parse_u8 c0 = some b0 →
      (splitChars ['.', '/'] s).get? 1 = some c1 → parse_u8 c1 = some b1 →
      (splitChars ['.', '/'] s).get? 2 = some c2 → parse_u8 c2 = some b2 →
      (splitChars ['.', '/'] s).get? 3 = some c3 → parse_u8 c3 = none →
      IPAddress.from_string s = .fails (.GenericError "byte 3" c3)) ∧
    (∀ s c0 b0 c1 b1 c2 b2 c3 b3 c4, (splitChars ['.', '/'] s).get? 0 = some c0 →
      parse_u8 c0 = some b0 →
      (splitChars ['.', '/'] s).get? 1 = some c1 → parse_u8 c1 = some b1 →
      (splitChars ['.', '/'] s).get? 2 = some c2 → parse_u8 c2 = some b2 →
      (splitChars ['.', '/'] s).get? 3 = some c3 → parse_u8 c3 = some b3 →
      (splitChars ['.', '/'] s).get? 4 = some c4 → parse_u8 c4 = none →
      IPAddress.from_string s = .fails (.GenericError "CIDR value" c4)) ∧
    (∀ s c0 b0 c1 b1 c2 b2 c3 b3 c4 v, (splitChars ['.', '/'] s).get? 0 = some c0 →
      parse_u8 c0 = some b0 →
      (splitChars ['.', '/'] s).get? 1 = some c1 → parse_u8 c1 = some b1 →
      (splitChars ['.', '/'] s).get? 2 = some c2 → parse_u8 c2 = some b2 →
      (splitChars ['.', '/'] s).get? 3 = some c3 → parse_u8 c3 = some b3 →
      (splitChars ['.', '/'] s).get? 4 = some c4 → parse_u8 c4 = some v →
      MAX_CIDR < v →
      IPAddress.from_string s = .fails (.MaxCidrExceeded v)) ∧
    IPAddress.from_string "192.i68.1.2/24".toList
      = .fails (.GenericError "byte 1" "i68".toList) := by
  refine ⟨?_, ?_, ?_, ?_, ?_, ?_, by decide⟩
  · intro s c0 h0 hp0
    simp only [IPAddress.from_string, h0, hp0]
  · intro s c0 b0 c1 h0 hp0 h1 hp1
    simp only [IPAddress.from_string, h0, hp0, h1, hp1]
  · intro s c0 b0 c1 b1 c2 h0 hp0 h1 hp1 h2 hp2
    simp only [IPAddress.from_string, h0, hp0, h1, hp1, h2, hp2]
  · intro s c0 b0 c1 b1 c2 b2 c3 h0 hp0 h1 hp1 h2 hp2 h3 hp3
    simp only [IPAddress.from_string, h0, hp0, h1, hp1, h2, hp2, h3, hp3]
  · intro s c0 b0 c1 b1 c2 b2 c3 b3 c4 h0 hp0 h1 hp1 h2 hp2 h3 hp3 h4 hp4
    have hlen : 5 ≤ (splitChars ['.', '/'] s).length := by
      obtain ⟨hlt, -⟩ := List.get?_eq_some.mp h4
      omega
    simp only [IPAddress.from_string, h0, hp0, h1, hp1, h2, hp2, h3, hp3,
      hlen, if_true, h4, hp4]
  · intro s c0 b0 c1 b1 c2 b2 c3 b3 c4 v h0 hp0 h1 hp1 h2 hp2 h3 hp3 h4 hp4 hv
    have hlen : 5 ≤ (splitChars ['.', '/'] s).length := by
      obtain ⟨hlt, -⟩ := List.get?_eq_some.mp h4
      omega
    simp only [IPAddress.from_string, h0, hp0, h1, hp1, h2, hp2, h3, hp3,
      hlen, if_true, h4, hp4, gt_iff_lt, hv]

theorem from_string_strict_order_witness :
    IPAddress.from_string "192.i68.1.2/24".toList
      = .fails (.GenericError "byte 1" "i68".toList) :=
  from_string_strict_order.2.1 "192.i68.1.2/24".toList "192".toList 192
    "i68".toList (by decide) (by decide) (by decide) (by decide)

theorem cidr_invariant_witness :
    (IPAddress.mk 1 2 3 4 UNDEF_CIDR).cidr = UNDEF_CIDR ∨
    (IPAddress.mk 1 2 3 4 UNDEF_CIDR).cidr ≤ MAX_CIDR :=
  cidr_invariant.1 ('1' :: '.' :: '2' :: '.' :: '3' :: '.' :: '4' :: [])
    (IPAddress.mk 1 2 3 4 UNDEF_CIDR) (by decide)

end Subnet
